import Mathlib

/-!
Verification of the weighted-scoring core of the MFI credit grade calculator
(src/main.jsx). JS numbers are modelled as exact rationals; JS objects whose
entries are iterated (the config model, `perDim`, `perDimDen`) or looked up
by key (the ratings object) are modelled as association lists in insertion
order, with lookups returning the first match.
-/

namespace MFI

/-- An indicator from the config model (src/main.jsx, entries of the
subcategory arrays): `\x7b kpi, weight, explanation \x7d`. -/
structure Indicator where
  kpi : String
  weight : ℚ
  explanation : String
deriving DecidableEq

/-- A dimension's subcategories: subcategory name to its indicator list. -/
abbrev Subcats := List (String × List Indicator)

/-- The config `model` field: dimension name to its subcategories. -/
abbrev Model := List (String × Subcats)

/-- The sparse ratings object `scores`: indicator key to rating. -/
abbrev Scores := List (String × ℚ)

/-- A grade band `\x7b label, min \x7d` (src/main.jsx:103-109). -/
structure Band where
  label : String
  min : ℚ
deriving DecidableEq

/-- The utility `clamp(v, min, max) = Math.max(min, Math.min(max, v))`
(src/main.jsx:59). -/
def clamp (v lo hi : ℚ) : ℚ := max lo (min hi v)

/-- `makeKey(dim, item)` (src/main.jsx:85-87): the rating key of an indicator
is the dimension name and the kpi string joined by a separator; the
subcategory is not part of the key. -/
def makeKey (dim : String) (item : Indicator) : String :=
  dim ++ "::" ++ item.kpi

/-- `Number(scores[key] ?? 0)` (src/main.jsx:72): lookup in the sparse
ratings object, defaulting to 0 when the key is absent. -/
def lookupScore (scores : Scores) (key : String) : ℚ :=
  match scores.find? (fun p => p.1 == key) with
  | some p => p.2
  | none => 0

/-- The clamped rating used by the aggregator for one indicator
(src/main.jsx:72): `clamp(Number(scores[key] ?? 0), 0, 5)`. -/
def ratingOf (scores : Scores) (dim : String) (item : Indicator) : ℚ :=
  clamp (lookupScore scores (makeKey dim item)) 0 5

/-- One indicator's contribution `w * (s / 5)` added to `dimSum` and `total`
(src/main.jsx:74,76), with `w = Number(item.weight || 0)`. -/
def itemContribution (scores : Scores) (dim : String) (item : Indicator) : ℚ :=
  item.weight * (ratingOf scores dim item / 5)

/-- All indicators of one dimension, across its subcategories in order
(the two inner loops of src/main.jsx:69-77). -/
def dimItems (subs : Subcats) : List Indicator :=
  (subs.map Prod.snd).flatten

/-- The per-dimension accumulator `dimSum` (src/main.jsx:67,74). -/
def dimSum (scores : Scores) (dim : String) (subs : Subcats) : ℚ :=
  ((dimItems subs).map (itemContribution scores dim)).sum

/-- The per-dimension weight accumulator `dimW` (src/main.jsx:68,75). -/
def dimWeight (subs : Subcats) : ℚ :=
  ((dimItems subs).map Indicator.weight).sum

/-- The result record of `computeWeighted`: `\x7b total, perDim, perDimDen \x7d`. -/
structure CWResult where
  total : ℚ
  perDim : List (String × ℚ)
  perDimDen : List (String × ℚ)
deriving DecidableEq

/-- `computeWeighted(model, scores)` (src/main.jsx:61-83): the nested loops
accumulate, for each dimension, the contribution sum (`perDim[dim] = dimSum`)
and the weight sum with zero replaced by one (`perDimDen[dim] = dimW || 1`),
and the grand `total` across all dimensions. -/
def computeWeighted (model : Model) (scores : Scores) : CWResult where
  total := (model.map (fun e => dimSum scores e.1 e.2)).sum
  perDim := model.map (fun e => (e.1, dimSum scores e.1 e.2))
  perDimDen := model.map (fun e => (e.1, if dimWeight e.2 = 0 then 1 else dimWeight e.2))

/-- The sum of all indicator weights in a config model. -/
def configWeightSum (model : Model) : ℚ :=
  (model.map (fun e => dimWeight e.2)).sum

/-- `Number(x.toFixed(2))`: rounding to two decimal places. -/
def round2 (q : ℚ) : ℚ := (⌊q * 100 + 1 / 2⌋ : ℚ) / 100

/-- The derived `totalPct = clamp(Number((total * 100).toFixed(2)), 0, 100)`
(src/main.jsx:117). -/
def totalPctOf (total : ℚ) : ℚ := clamp (round2 (total * 100)) 0 100

/-- The scanning loop of `gradeFromScore` (src/main.jsx:91-93): the first
band in order with `pct >= b.min` wins. -/
def gradeLoop (pct : ℚ) : List Band → Option String
  | [] => none
  | b :: bs => if b.min ≤ pct then some b.label else gradeLoop pct bs

/-- `gradeFromScore(pct, bands)` (src/main.jsx:89-95): the loop's match if
any, else the last band's label, else "N/A" on an empty band list. -/
def gradeFromScore (pct : ℚ) (bands : List Band) : String :=
  match gradeLoop pct bands with
  | some lab => lab
  | none =>
    match bands.getLast? with
    | some b => b.label
    | none => "N/A"

/-- A config document as held in state; only its `model` field is read by the
aggregation pipeline. -/
structure Config where
  model : Model
deriving DecidableEq

/-- The React state acted on by the handlers: `config`, `scores`, `bands`
(src/main.jsx:101-109). -/
structure AppState where
  config : Config
  scores : Scores
  bands : List Band
deriving DecidableEq

/-- The default band list (src/main.jsx:103-109). -/
def defaultBands : List Band :=
  [⟨"A", 85⟩, ⟨"B", 70⟩, ⟨"C", 55⟩, ⟨"D", 40⟩, ⟨"E", 0⟩]

/-- The memoized aggregate of the current state (src/main.jsx:112-115). -/
def displayCW (st : AppState) : CWResult :=
  computeWeighted st.config.model st.scores

/-- The memoized `totalPct` of the current state (src/main.jsx:117). -/
def displayTotalPct (st : AppState) : ℚ := totalPctOf (displayCW st).total

/-- The memoized `finalGrade` of the current state (src/main.jsx:118). -/
def displayFinalGrade (st : AppState) : String :=
  gradeFromScore (displayTotalPct st) st.bands

/-- Lookup in a name-to-number object such as `perDim` / `perDimDen`. -/
def lookupQ (l : List (String × ℚ)) (key : String) : ℚ :=
  match l.find? (fun p => p.1 == key) with
  | some p => p.2
  | none => 0

/-- `radarData` (src/main.jsx:120-125): for each dimension of the model,
`clamp((perDim[dim] / (perDimDen[dim] || 1)) * 100, 0, 100)`. -/
def radarData (model : Model) (scores : Scores) : List (String × ℚ) :=
  let r := computeWeighted model scores
  model.map (fun e =>
    (e.1,
      clamp ((lookupQ r.perDim e.1 /
        (if lookupQ r.perDimDen e.1 = 0 then 1 else lookupQ r.perDimDen e.1)) * 100) 0 100))

/-- The exported snapshot `\x7b scores, totalPct, finalGrade \x7d`
(src/main.jsx:146). -/
structure Snapshot where
  scores : Scores
  totalPct : ℚ
  finalGrade : String
deriving DecidableEq

/-- `handleDownloadScores` (src/main.jsx:145-153): serializes the current
`scores` with the derived `totalPct` and `finalGrade`; no state is written,
so the handler returns the state unchanged beside the snapshot. -/
def handleDownloadScores (st : AppState) : AppState × Snapshot :=
  (st, ⟨st.scores, displayTotalPct st, displayFinalGrade st⟩)

/-- A successfully parsed upload document; only its `model` field is
inspected by `handleUpload`, so only that field is modelled. `model = none`
models a document without a (truthy) top-level `model`. -/
structure ParsedDoc where
  model : Option Model
deriving DecidableEq

/-- An upload: `JSON.parse` either throws (with a message) or yields a
parsed document. -/
abbrev UploadDoc := Except String ParsedDoc

/-- `handleUpload` (src/main.jsx:131-143): a parse error or a missing
`model` lands in the catch-block, which reports a message via `alert` and
leaves the state untouched; otherwise the whole document becomes the config
and the scores are reset to the empty object. -/
def handleUpload (st : AppState) (doc : UploadDoc) : AppState × Option String :=
  match doc with
  | .error msg => (st, some ("Could not load JSON: " ++ msg))
  | .ok d =>
    match d.model with
    | none => (st, some "Could not load JSON: Invalid config: missing model")
    | some m => ({ st with config := ⟨m⟩, scores := [] }, none)

/-- Spec side, for the export claim: `totalPct` recomputed fresh from the
same config and ratings. -/
def freshTotalPct (config : Config) (scores : Scores) : ℚ :=
  totalPctOf (computeWeighted config.model scores).total

/-- Spec side, for the export claim: `finalGrade` recomputed fresh. -/
def freshFinalGrade (config : Config) (scores : Scores) (bands : List Band) : String :=
  gradeFromScore (freshTotalPct config scores) bands

/-- Spec side, for the band claims: the band at index `i` is the first match
for `pct` in the order given: it matches and every earlier band does not. -/
def IsFirstMatch (pct : ℚ) (bands : List Band) (i : ℕ) (b : Band) : Prop :=
  bands.get? i = some b ∧ b.min ≤ pct ∧
    ∀ j, j < i → ∀ c, bands.get? j = some c → pct < c.min

theorem lookupScore_cons (k : String) (v : ℚ) (s : Scores) (key : String) :
    lookupScore ((k, v) :: s) key = if k == key then v else lookupScore s key := by
  cases hk : (k == key) <;> simp [lookupScore, List.find?, hk]

theorem ratingOf_cons_congr (key : String) (v w : ℚ)
    (hvw : clamp v 0 5 = clamp w 0 5) (s : Scores) (dim : String) (item : Indicator) :
    ratingOf ((key, v) :: s) dim item = ratingOf ((key, w) :: s) dim item := by
  unfold ratingOf
  rw [lookupScore_cons, lookupScore_cons]
  cases hk : (key == makeKey dim item) <;> simp [hk]
  exact hvw

theorem computeWeighted_scores_congr (model : Model) (s1 s2 : Scores)
    (h : ∀ dim item, ratingOf s1 dim item = ratingOf s2 dim item) :
    computeWeighted model s1 = computeWeighted model s2 := by
  have hd : ∀ (dim : String) (subs : Subcats), dimSum s1 dim subs = dimSum s2 dim subs := by
    intro dim subs
    unfold dimSum
    congr 1
    exact List.map_congr_left (fun it _ => by unfold itemContribution; rw [h dim it])
  unfold computeWeighted
  simp only [hd]

/-- C2: for every state (config, ratings, bands), the exported snapshot's
`totalPct` and `finalGrade` equal a fresh computation of `computeWeighted`
followed by the `totalPct` derivation and `gradeFromScore` on the same
bands, the snapshot carries the current ratings, and exporting leaves the
state unchanged. -/
theorem export_matches_fresh (st : AppState) :
    (handleDownloadScores st).1 = st ∧
      (handleDownloadScores st).2.totalPct = freshTotalPct st.config st.scores ∧
      (handleDownloadScores st).2.finalGrade = freshFinalGrade st.config st.scores st.bands ∧
      (handleDownloadScores st).2.scores = st.scores :=
  ⟨rfl, rfl, rfl, rfl⟩

/-- C3: config replacement is atomic: for every state and uploaded document,
either the document parsed with a `model` field and the whole document
replaces the config (ratings resetting, bands kept), or a user-visible
failure is reported and the state is completely unchanged. -/
theorem handleUpload_atomic (st : AppState) (doc : UploadDoc) :
    (∃ m : Model, doc = .ok ⟨some m⟩ ∧
        handleUpload st doc =
          ({ config := ⟨m⟩, scores := [], bands := st.bands }, none)) ∨
      ((handleUpload st doc).2 ≠ none ∧ (handleUpload st doc).1 = st) := by
  cases doc with
  | error msg =>
    right
    exact ⟨by simp [handleUpload], rfl⟩
  | ok d =>
    obtain ⟨om⟩ := d
    cases om with
    | none =>
      right
      exact ⟨by simp [handleUpload], rfl⟩
    | some m =>
      left
      exact ⟨m, rfl, rfl⟩

/-- C6: a successful upload (the document has a `model` field) sets the
ratings map to the empty object, so afterwards every key looks up to 0 and
every indicator of the new config reports a clamped rating of 0. -/
theorem handleUpload_resets_scores (st : AppState) (d : ParsedDoc) (m : Model)
    (hm : d.model = some m) :
    (handleUpload st (.ok d)).1.scores = [] ∧
      (handleUpload st (.ok d)).1.config = ⟨m⟩ ∧
      (∀ key : String, lookupScore (handleUpload st (.ok d)).1.scores key = 0) ∧
      ∀ (dim : String) (item : Indicator),
        ratingOf (handleUpload st (.ok d)).1.scores dim item = 0 := by
  obtain ⟨om⟩ := d
  cases hm
  refine ⟨rfl, rfl, fun key => rfl, fun dim item => ?_⟩
  show clamp (lookupScore [] (makeKey dim item)) 0 5 = 0
  show clamp 0 0 5 = 0
  decide

/-- C6 witness: a concrete successful upload leaves an empty ratings map. -/
theorem handleUpload_resets_scores_witness :
    (ParsedDoc.mk (some [("D", [])])).model = some [("D", [])] ∧
      (handleUpload ⟨⟨[]⟩, [("x", 3)], defaultBands⟩
          (.ok ⟨some [("D", [])]⟩)).1.scores = [] :=
  ⟨rfl,
    (handleUpload_resets_scores ⟨⟨[]⟩, [("x", 3)], defaultBands⟩
      ⟨some [("D", [])]⟩ [("D", [])] rfl).1⟩

/-- C7: out-of-range ratings are silently clamped: a ratings map giving some
key the rating -1 (respectively 6) yields exactly the same `computeWeighted`
result as the map giving the same key 0 (respectively 5). -/
theorem clamped_ratings_equiv (model : Model) (scores : Scores) (key : String) :
    computeWeighted model ((key, -1) :: scores) =
        computeWeighted model ((key, 0) :: scores) ∧
      computeWeighted model ((key, 6) :: scores) =
        computeWeighted model ((key, 5) :: scores) :=
  ⟨computeWeighted_scores_congr model _ _
      (fun dim item => ratingOf_cons_congr key (-1) 0 (by decide) scores dim item),
    computeWeighted_scores_congr model _ _
      (fun dim item => ratingOf_cons_congr key 6 5 (by decide) scores dim item)⟩

theorem total_eq_weightSum_of_all_fives (model : Model) (scores : Scores)
    (h5 : ∀ e ∈ model, ∀ item ∈ dimItems e.2,
      lookupScore scores (makeKey e.1 item) = 5) :
    (computeWeighted model scores).total = configWeightSum model := by
  unfold computeWeighted configWeightSum
  simp only
  congr 1
  refine List.map_congr_left (fun e he => ?_)
  unfold dimSum dimWeight
  congr 1
  refine List.map_congr_left (fun it hit => ?_)
  unfold itemContribution ratingOf
  rw [h5 e he it hit]
  show it.weight * (clamp 5 0 5 / 5) = it.weight
  norm_num [clamp]

/-- C1 (amended): with every rating at 5, `total` is the sum of all weights
in the config, and `totalPct` is `clamp` of the two-decimal rounding of
100 × that sum (the code rounds via `toFixed(2)` before clamping). -/
theorem totalPct_all_fives (model : Model) (scores : Scores)
    (h5 : ∀ e ∈ model, ∀ item ∈ dimItems e.2,
      lookupScore scores (makeKey e.1 item) = 5) :
    (computeWeighted model scores).total = configWeightSum model ∧
      totalPctOf (computeWeighted model scores).total =
        clamp (round2 (100 * configWeightSum model)) 0 100 := by
  have ht := total_eq_weightSum_of_all_fives model scores h5
  refine ⟨ht, ?_⟩
  unfold totalPctOf
  rw [ht, mul_comm]

/-- C1 witness: a concrete config with one indicator of weight 1 rated 5. -/
theorem totalPct_all_fives_witness :
    (∀ e ∈ ([("D", [("S", [⟨"k", 1, "x"⟩])])] : Model), ∀ item ∈ dimItems e.2,
        lookupScore [("D::k", 5)] (makeKey e.1 item) = 5) ∧
      (computeWeighted [("D", [("S", [⟨"k", 1, "x"⟩])])] [("D::k", 5)]).total =
        configWeightSum [("D", [("S", [⟨"k", 1, "x"⟩])])] :=
  ⟨by decide,
    (totalPct_all_fives [("D", [("S", [⟨"k", 1, "x"⟩])])] [("D::k", 5)] (by decide)).1⟩

/-- C1 counterexample: with a single indicator of weight 1/100000 rated 5,
`total` is the weight sum 1/100000, but the derived `totalPct` is 0 while
the claimed unrounded value `clamp(100 × sum, 0, 100)` is 1/1000: the code
rounds to two decimals via `toFixed(2)`, so the exact no-rounding formula of
the claim does not hold. -/
theorem totalPct_rounding_counterexample :
    (∀ e ∈ ([("D", [("S", [⟨"k", 1/100000, "x"⟩])])] : Model), ∀ item ∈ dimItems e.2,
        lookupScore [("D::k", 5)] (makeKey e.1 item) = 5) ∧
      (computeWeighted [("D", [("S", [⟨"k", 1/100000, "x"⟩])])] [("D::k", 5)]).total =
        configWeightSum [("D", [("S", [⟨"k", 1/100000, "x"⟩])])] ∧
      totalPctOf
          (computeWeighted [("D", [("S", [⟨"k", 1/100000, "x"⟩])])] [("D::k", 5)]).total ≠
        clamp (100 * configWeightSum [("D", [("S", [⟨"k", 1/100000, "x"⟩])])]) 0 100 := by
  have hl : lookupScore [("D::k", 5)] (makeKey "D" ⟨"k", 1/100000, "x"⟩) = 5 := rfl
  have ht : (computeWeighted [("D", [("S", [⟨"k", 1/100000, "x"⟩])])]
      [("D::k", 5)]).total = 1 / 100000 := by
    simp only [computeWeighted, dimSum, dimItems, itemContribution, ratingOf,
      List.map_cons, List.map_nil, List.flatten, List.append_nil, List.sum_cons,
      List.sum_nil, hl]
    norm_num [clamp]
  refine ⟨?_, ?_, ?_⟩
  · intro e he item hit
    fin_cases he
    fin_cases hit
    rfl
  · rw [ht]
    norm_num [configWeightSum, dimWeight, dimItems]
  · rw [ht]
    have hs : configWeightSum [("D", [("S", [⟨"k", 1/100000, "x"⟩])])] = 1 / 100000 := by
      norm_num [configWeightSum, dimWeight, dimItems]
    rw [hs]
    norm_num [totalPctOf, round2, clamp]

theorem gradeLoop_of_first_match (bands : List Band) :
    ∀ (pct : ℚ) (i : ℕ) (b : Band), IsFirstMatch pct bands i b →
      gradeLoop pct bands = some b.label := by
  induction bands with
  | nil =>
    intro pct i b h
    simp [IsFirstMatch] at h
  | cons a as ih =>
    intro pct i b h
    obtain ⟨hget, hle, hfirst⟩ := h
    cases i with
    | zero =>
      obtain rfl : a = b := by simpa using hget
      simp [gradeLoop, hle]
    | succ n =>
      have ha : pct < a.min := hfirst 0 (Nat.succ_pos n) a rfl
      rw [gradeLoop, if_neg (not_le.mpr ha)]
      exact ih pct n b ⟨hget, hle,
        fun j hj c hc => hfirst (j + 1) (Nat.succ_lt_succ hj) c hc⟩

/-- C4: `gradeFromScore` scans the bands in the order given and returns the
label of the first band whose `min` is at most the percentage; on the
default bands, 85 yields "A", 84.9 yields "B", 0 yields "E", 100 yields
"A". -/
theorem gradeFromScore_first_match :
    (∀ (pct : ℚ) (bands : List Band) (i : ℕ) (b : Band),
        IsFirstMatch pct bands i b → gradeFromScore pct bands = b.label) ∧
      gradeFromScore 85 defaultBands = "A" ∧
      gradeFromScore (849 / 10) defaultBands = "B" ∧
      gradeFromScore 0 defaultBands = "E" ∧
      gradeFromScore 100 defaultBands = "A" := by
  refine ⟨fun pct bands i b h => ?_, ?_, ?_, ?_, ?_⟩
  · unfold gradeFromScore
    rw [gradeLoop_of_first_match bands pct i b h]
  · norm_num [gradeFromScore, gradeLoop, defaultBands]
  · norm_num [gradeFromScore, gradeLoop, defaultBands]
  · norm_num [gradeFromScore, gradeLoop, defaultBands]
  · norm_num [gradeFromScore, gradeLoop, defaultBands]

/-- C4 witness: on the default bands, 72 first matches the "B" band at
index 1 and the grade is "B". -/
theorem gradeFromScore_first_match_witness :
    IsFirstMatch 72 defaultBands 1 ⟨"B", 70⟩ ∧
      gradeFromScore 72 defaultBands = "B" := by
  have hfm : IsFirstMatch 72 defaultBands 1 ⟨"B", 70⟩ := by
    refine ⟨rfl, by norm_num, ?_⟩
    intro j hj c hc
    interval_cases j
    cases Option.some.inj hc
    norm_num
  exact ⟨hfm, gradeFromScore_first_match.1 72 defaultBands 1 ⟨"B", 70⟩ hfm⟩

theorem gradeLoop_eq_none (pct : ℚ) (bands : List Band)
    (h : ∀ b ∈ bands, pct < b.min) : gradeLoop pct bands = none := by
  induction bands with
  | nil => rfl
  | cons a as ih =>
    rw [gradeLoop, if_neg (not_le.mpr (h a (List.mem_cons_self a as)))]
    exact ih (fun b hb => h b (List.mem_cons_of_mem a hb))

/-- C9: when no band's `min` is at most the percentage, `gradeFromScore` on
a non-empty band list returns the last band's label, and on an empty band
list it returns the sentinel "N/A". -/
theorem gradeFromScore_fallback :
    (∀ (pct : ℚ) (bands : List Band) (h : bands ≠ []),
        (∀ b ∈ bands, pct < b.min) →
          gradeFromScore pct bands = (bands.getLast h).label) ∧
      ∀ pct : ℚ, gradeFromScore pct [] = "N/A" := by
  refine ⟨fun pct bands h hall => ?_, fun pct => rfl⟩
  unfold gradeFromScore
  rw [gradeLoop_eq_none pct bands hall, List.getLast?_eq_getLast bands h]

/-- C9 witness: with bands A ≥ 85, B ≥ 70 and score 10, no band matches and
the last band's label "B" is returned. -/
theorem gradeFromScore_fallback_witness :
    (∀ b ∈ ([⟨"A", 85⟩, ⟨"B", 70⟩] : List Band), (10:ℚ) < b.min) ∧
      gradeFromScore 10 [⟨"A", 85⟩, ⟨"B", 70⟩] = "B" :=
  ⟨by decide,
    gradeFromScore_fallback.1 10 [⟨"A", 85⟩, ⟨"B", 70⟩] (by decide) (by decide)⟩

theorem dimSum_congr (d : String) (subs : Subcats) (s1 s2 : Scores)
    (h : ∀ item ∈ dimItems subs,
      lookupScore s1 (makeKey d item) = lookupScore s2 (makeKey d item)) :
    dimSum s1 d subs = dimSum s2 d subs := by
  unfold dimSum
  congr 1
  refine List.map_congr_left (fun it hit => ?_)
  unfold itemContribution ratingOf
  rw [h it hit]

/-- C5: the per-dimension sum and weight denominator reported by
`computeWeighted` for the dimension at a given position depend only on the
ratings of that dimension's own indicators: two ratings maps agreeing on all
of its indicator keys yield the same `perDim` and `perDimDen` entry there. -/
theorem perDim_independent (model : Model) (s1 s2 : Scores) (i : ℕ)
    (d : String) (subs : Subcats) (hi : model.get? i = some (d, subs))
    (h : ∀ item ∈ dimItems subs,
      lookupScore s1 (makeKey d item) = lookupScore s2 (makeKey d item)) :
    (computeWeighted model s1).perDim.get? i = (computeWeighted model s2).perDim.get? i ∧
      (computeWeighted model s1).perDimDen.get? i =
        (computeWeighted model s2).perDimDen.get? i := by
  constructor
  · show (model.map _).get? i = (model.map _).get? i
    rw [List.get?_map, List.get?_map, hi]
    simp only [Option.map_some']
    rw [dimSum_congr d subs s1 s2 h]
  · rfl

/-- C5 witness: two ratings maps that differ only on another dimension's
indicator give the same entry for the first dimension. -/
theorem perDim_independent_witness :
    (([("D", [("S", [⟨"k", 1, "x"⟩])]), ("E", [("T", [⟨"m", 1, "x"⟩])])] : Model).get? 0 =
        some ("D", [("S", [⟨"k", 1, "x"⟩])])) ∧
      (∀ item ∈ dimItems [("S", [⟨"k", 1, "x"⟩])],
        lookupScore [("E::m", 3)] (makeKey "D" item) =
          lookupScore [("E::m", 4)] (makeKey "D" item)) ∧
      (computeWeighted [("D", [("S", [⟨"k", 1, "x"⟩])]), ("E", [("T", [⟨"m", 1, "x"⟩])])]
            [("E::m", 3)]).perDim.get? 0 =
        (computeWeighted [("D", [("S", [⟨"k", 1, "x"⟩])]), ("E", [("T", [⟨"m", 1, "x"⟩])])]
            [("E::m", 4)]).perDim.get? 0 :=
  ⟨rfl, by decide,
    (perDim_independent
      [("D", [("S", [⟨"k", 1, "x"⟩])]), ("E", [("T", [⟨"m", 1, "x"⟩])])]
      [("E::m", 3)] [("E::m", 4)] 0 "D" [("S", [⟨"k", 1, "x"⟩])] rfl (by decide)).1⟩

theorem lookupQ_map (l : Model) (f : String × Subcats → ℚ) (d : String) (subs : Subcats)
    (hnd : (l.map Prod.fst).Nodup) (hmem : (d, subs) ∈ l) :
    lookupQ (l.map (fun e => (e.1, f e))) d = f (d, subs) := by
  induction l with
  | nil => cases hmem
  | cons a l ih =>
    rcases List.mem_cons.mp hmem with h | h
    · obtain rfl := h.symm
      simp [lookupQ, List.find?]
    · have hne : a.1 ≠ d := by
        intro he
        have : d ∈ l.map Prod.fst := List.mem_map_of_mem Prod.fst h
        rw [List.map_cons, List.nodup_cons, he] at hnd
        exact hnd.1 this
      have hb : (a.1 == d) = false := beq_eq_false_iff_ne.mpr hne
      rw [List.map_cons]
      show lookupQ ((a.1, f a) :: l.map (fun e => (e.1, f e))) d = f (d, subs)
      unfold lookupQ
      rw [List.find?]
      simp only [hb]
      exact ih (by rw [List.map_cons, List.nodup_cons] at hnd; exact hnd.2) h

theorem list_sum_eq_zero_of_nonneg (l : List ℚ) (hnn : ∀ x ∈ l, 0 ≤ x)
    (hz : l.sum = 0) : ∀ x ∈ l, x = 0 := by
  induction l with
  | nil => intro x hx; cases hx
  | cons a l ih =>
    have hta : 0 ≤ a := hnn a (List.mem_cons_self a l)
    have htl : 0 ≤ l.sum := List.sum_nonneg (fun x hx => hnn x (List.mem_cons_of_mem a hx))
    rw [List.sum_cons] at hz
    have ha : a = 0 := le_antisymm (by linarith) hta
    have hl : l.sum = 0 := by linarith
    intro x hx
    rcases List.mem_cons.mp hx with rfl | hx
    · exact ha
    · exact ih (fun y hy => hnn y (List.mem_cons_of_mem a hy)) hl x hx

/-- C8: for a dimension whose indicator weights sum to zero (with the data
model's non-negative weights, all its weights are zero), `computeWeighted`
reports its weight denominator as 1 instead of 0, the per-dimension sum is
its raw contribution sum 0, and the radar percentage — computed by dividing
by that denominator — equals that raw sum rather than a division by zero. -/
theorem zero_weight_dim (model : Model) (scores : Scores) (d : String) (subs : Subcats)
    (hmem : (d, subs) ∈ model) (hnd : (model.map Prod.fst).Nodup)
    (hw : dimWeight subs = 0)
    (hnn : ∀ item ∈ dimItems subs, 0 ≤ item.weight) :
    lookupQ (computeWeighted model scores).perDimDen d = 1 ∧
      dimSum scores d subs = 0 ∧
      lookupQ (radarData model scores) d = dimSum scores d subs := by
  have hden : lookupQ (computeWeighted model scores).perDimDen d = 1 := by
    show lookupQ (model.map _) d = 1
    rw [lookupQ_map model (fun e => if dimWeight e.2 = 0 then 1 else dimWeight e.2)
      d subs hnd hmem]
    simp [hw]
  have hzero : dimSum scores d subs = 0 := by
    unfold dimSum
    refine List.sum_eq_zero (fun x hx => ?_)
    rcases List.mem_map.mp hx with ⟨it, hit, rfl⟩
    have hw0 : it.weight = 0 :=
      list_sum_eq_zero_of_nonneg ((dimItems subs).map Indicator.weight)
        (fun y hy => by
          rcases List.mem_map.mp hy with ⟨jt, hjt, rfl⟩
          exact hnn jt hjt)
        hw it.weight (List.mem_map_of_mem Indicator.weight hit)
    unfold itemContribution
    rw [hw0, zero_mul]
  have hpd : lookupQ (computeWeighted model scores).perDim d = 0 := by
    show lookupQ (model.map _) d = 0
    rw [lookupQ_map model (fun e => dimSum scores e.1 e.2) d subs hnd hmem]
    exact hzero
  refine ⟨hden, hzero, ?_⟩
  unfold radarData
  rw [lookupQ_map model _ d subs hnd hmem]
  simp only [hden, hpd, hzero]
  norm_num [clamp]

/-- C8 witness: a dimension with a single weight-0 indicator gets
denominator 1 and radar score equal to its raw sum 0. -/
theorem zero_weight_dim_witness :
    (("D", [("S", [⟨"k", 0, "x"⟩])]) ∈ ([("D", [("S", [⟨"k", 0, "x"⟩])])] : Model)) ∧
      dimWeight [("S", [⟨"k", 0, "x"⟩])] = 0 ∧
      lookupQ (computeWeighted [("D", [("S", [⟨"k", 0, "x"⟩])])] [("D::k", 4)]).perDimDen
          "D" = 1 :=
  ⟨by decide, by simp [dimWeight, dimItems],
    (zero_weight_dim [("D", [("S", [⟨"k", 0, "x"⟩])])] [("D::k", 4)] "D"
      [("S", [⟨"k", 0, "x"⟩])] (by decide) (by decide)
      (by simp [dimWeight, dimItems]) (by decide)).1⟩

theorem dimSum_extract_pair (scores : Scores) (dim : String)
    (u1 u2 u3 : Subcats) (s1 s2 : String)
    (a1 b1 a2 b2 : List Indicator) (it1 it2 : Indicator) :
    dimSum scores dim
        (u1 ++ (s1, a1 ++ it1 :: b1) :: u2 ++ (s2, a2 ++ it2 :: b2) :: u3) =
      itemContribution scores dim it1 + itemContribution scores dim it2 +
        dimSum scores dim (u1 ++ (s1, a1 ++ b1) :: u2 ++ (s2, a2 ++ b2) :: u3) := by
  simp only [dimSum, dimItems, List.map_append, List.map_cons, List.flatten_append,
    List.flatten_cons, List.sum_append, List.sum_cons]
  ring

theorem computeWeighted_total_extract (scores : Scores) (m1 m2 : Model)
    (e : String × Subcats) :
    (computeWeighted (m1 ++ e :: m2) scores).total =
      dimSum scores e.1 e.2 + (computeWeighted (m1 ++ m2) scores).total := by
  simp only [computeWeighted, List.map_append, List.map_cons, List.sum_append,
    List.sum_cons]
  ring

/-- C10: rating keys are built from the dimension name and kpi only, never
the subcategory: in every config containing, inside one dimension, two
different subcategories whose indicator lists hold indicators with the same
kpi, the two indicators share one rating key, `computeWeighted` reads that
single shared ratings entry for both, and each still contributes its own
weight × (rating / 5) to the dimension sum and to the total, the rest of
the config contributing as it would without the pair. -/
theorem makeKey_ignores_subcategory (scores : Scores) (dim : String)
    (m1 m2 : Model) (u1 u2 u3 : Subcats) (s1 s2 : String)
    (a1 b1 a2 b2 : List Indicator) (it1 it2 : Indicator)
    (hkpi : it1.kpi = it2.kpi) :
    makeKey dim it1 = makeKey dim it2 ∧
      itemContribution scores dim it1 =
        it1.weight * (clamp (lookupScore scores (makeKey dim it1)) 0 5 / 5) ∧
      itemContribution scores dim it2 =
        it2.weight * (clamp (lookupScore scores (makeKey dim it1)) 0 5 / 5) ∧
      dimSum scores dim
          (u1 ++ (s1, a1 ++ it1 :: b1) :: u2 ++ (s2, a2 ++ it2 :: b2) :: u3) =
        it1.weight * (clamp (lookupScore scores (makeKey dim it1)) 0 5 / 5) +
          it2.weight * (clamp (lookupScore scores (makeKey dim it1)) 0 5 / 5) +
          dimSum scores dim (u1 ++ (s1, a1 ++ b1) :: u2 ++ (s2, a2 ++ b2) :: u3) ∧
      (computeWeighted
          (m1 ++ (dim, u1 ++ (s1, a1 ++ it1 :: b1) :: u2 ++ (s2, a2 ++ it2 :: b2) :: u3)
            :: m2) scores).total =
        dimSum scores dim
            (u1 ++ (s1, a1 ++ it1 :: b1) :: u2 ++ (s2, a2 ++ it2 :: b2) :: u3) +
          (computeWeighted (m1 ++ m2) scores).total := by
  have hk : makeKey dim it1 = makeKey dim it2 := by
    unfold makeKey
    rw [hkpi]
  have h1 : itemContribution scores dim it1 =
      it1.weight * (clamp (lookupScore scores (makeKey dim it1)) 0 5 / 5) := rfl
  have h2 : itemContribution scores dim it2 =
      it2.weight * (clamp (lookupScore scores (makeKey dim it1)) 0 5 / 5) := by
    rw [hk]
    exact rfl
  refine ⟨hk, h1, h2, ?_, ?_⟩
  · rw [← h1, ← h2]
    exact dimSum_extract_pair scores dim u1 u2 u3 s1 s2 a1 b1 a2 b2 it1 it2
  · exact computeWeighted_total_extract scores m1 m2 _

/-- C10 witness: in a config holding kpi-"k" indicators in two different
subcategories of dimension "D", both indicators get the key of the first and
the dimension sum splits into their two own-weight contributions. -/
theorem makeKey_ignores_subcategory_witness :
    (Indicator.kpi ⟨"k", 1, "x"⟩ = Indicator.kpi ⟨"k", 2, "y"⟩) ∧
      makeKey "D" ⟨"k", 1, "x"⟩ = makeKey "D" ⟨"k", 2, "y"⟩ ∧
      dimSum [("D::k", 5)] "D"
          ([] ++ ("S1", [] ++ (⟨"k", 1, "x"⟩ : Indicator) :: []) ::
            [] ++ ("S2", [] ++ (⟨"k", 2, "y"⟩ : Indicator) :: []) :: []) =
        (1 : ℚ) * (clamp (lookupScore [("D::k", 5)] (makeKey "D" ⟨"k", 1, "x"⟩)) 0 5 / 5) +
          2 * (clamp (lookupScore [("D::k", 5)] (makeKey "D" ⟨"k", 1, "x"⟩)) 0 5 / 5) +
          dimSum [("D::k", 5)] "D"
            ([] ++ ("S1", ([] : List Indicator) ++ []) ::
              [] ++ ("S2", ([] : List Indicator) ++ []) :: []) := by
  have h := makeKey_ignores_subcategory [("D::k", 5)] "D" [] [] [] [] []
    "S1" "S2" [] [] [] [] ⟨"k", 1, "x"⟩ ⟨"k", 2, "y"⟩ rfl
  exact ⟨rfl, h.1, h.2.2.2.1⟩

end MFI
